import Mathlib

/-!
Verification of the aggregation engine of `claude-usage-monitor.py`
(class `ClaudeUsageMonitor`), shallowly embedded in Lean 4.

Modelling conventions, stated once:
  * JSON entries are embedded structurally, mirroring exactly the fields the
    source reads with `dict.get`: an absent field is represented by the default
    the source's `.get` supplies (`{}`, `[]`, `0`, `None`).
  * Python dictionaries (`Counter`, `defaultdict`) are association lists with
    replace-or-append insertion, so keys are never duplicated.
  * Token counts read from JSON are `Int` (Python integers are unbounded and
    JSON admits negative numbers; the source imposes no sign check).
  * Timestamps: `datetime.fromisoformat` is abstracted to its outcome — the
    entry either has no (falsy) timestamp, an unparseable one (`ValueError`),
    or one that parses to an instant, modelled as an integer on the
    totally-ordered timeline; `cutoff_date` is likewise an integer parameter.
  * Python truthiness of optional strings: `None` and `""` are falsy.
  * Python float arithmetic in the report is modelled by exact rationals `ℚ`.
-/

set_option autoImplicit false

namespace UsageMonitor

/-- String-keyed map, modelling a Python dict in insertion order. -/
abbrev SMap (α : Type) := List (String × α)

/-- Lookup, first binding wins (keys are unique by construction). -/
def SMap.find {α : Type} : SMap α → String → Option α
  | [], _ => none
  | (k', v) :: m, k => if k' = k then some v else SMap.find m k

/-- Lookup with a default, modelling `defaultdict`/`Counter` read access. -/
def SMap.findD {α : Type} (m : SMap α) (k : String) (d : α) : α :=
  (m.find k).getD d

/-- Replace the binding of `k` in place, or append it, modelling dict write. -/
def SMap.insert {α : Type} : SMap α → String → α → SMap α
  | [], k, v => [(k, v)]
  | (k', v') :: m, k, v =>
      if k' = k then (k, v) :: m else (k', v') :: SMap.insert m k v

/-- Key membership, modelling `k in d`. -/
def SMap.hasKey {α : Type} (m : SMap α) (k : String) : Bool :=
  (m.find k).isSome

/-- Sum of a numeric projection over all values, modelling `sum(... for ... in d.values())`. -/
def SMap.sumBy {α : Type} (m : SMap α) (f : α → Nat) : Nat :=
  (m.map (fun p => f p.2)).sum

/-- Truthiness of an optional string: Python's `if s:` (`None` and `""` falsy). -/
def strTruthy : Option String → Bool
  | none => false
  | some s => !(s = "")

/-- Python `a or b` on optional strings: `a` if truthy, else `b`. -/
def pyOr (a b : Option String) : Option String :=
  if strTruthy a then a else b

/-- The `message.usage` object: the four counters the source reads
(`usage.get('input_tokens', 0)` etc.), absent fields already defaulted to 0. -/
structure Usage where
  input_tokens : Int := 0
  output_tokens : Int := 0
  cache_creation_input_tokens : Int := 0
  cache_read_input_tokens : Int := 0
deriving DecidableEq, Repr

/-- The `input` object of a `tool_use` content block: the two fields the
source reads (`subagent_type`, `agent`), `none` when absent. -/
structure ToolInput where
  subagent_type : Option String := none
  agent : Option String := none
deriving DecidableEq, Repr

/-- One item of `message.content`. `other` covers every item that is not a
dict with `type == 'tool_use'`; a `tool_use` block carries its optional
`name` and its `input` object. -/
inductive ContentItem where
  | other : ContentItem
  | toolUse (name : Option String) (tool_input : ToolInput) : ContentItem
deriving DecidableEq, Repr

/-- The `message.content` field: either not a list (so the source skips the
loop) or a list of items. An absent field defaults to `items []`. -/
inductive ContentField where
  | notList : ContentField
  | items (l : List ContentItem) : ContentField
deriving DecidableEq, Repr

/-- The `message` object: `content` and `usage` as the source reads them. -/
structure Message where
  content : ContentField := .items []
  usage : Usage := {}
deriving DecidableEq, Repr

/-- Outcome of the `timestamp` field: falsy/absent, present but raising
`ValueError` in `fromisoformat`, or parsed to an instant on the timeline. -/
inductive TsField where
  | absent : TsField
  | unparseable (s : String) : TsField
  | parsed (t : Int) : TsField
deriving DecidableEq, Repr

/-- One parsed JSONL entry, with exactly the fields `process_entry` reads. -/
structure Entry where
  timestamp : TsField := .absent
  sessionId : Option String := none
  message : Message := {}
deriving DecidableEq, Repr

/-- Per-agent record of `self.agent_usage` (source `__init__`, lines 49-56). -/
structure AgentData where
  count : Nat := 0
  total_input_tokens : Int := 0
  total_output_tokens : Int := 0
  total_cache_creation_tokens : Int := 0
  total_cache_read_tokens : Int := 0
  sessions : List String := []
deriving DecidableEq, Repr

/-- Per-tool record of `self.tool_token_usage` (source lines 57-62). -/
structure ToolTokens where
  input_tokens : Int := 0
  output_tokens : Int := 0
  cache_creation_tokens : Int := 0
  cache_read_tokens : Int := 0
deriving DecidableEq, Repr

/-- The mutable aggregation state of a `ClaudeUsageMonitor` instance. -/
structure MonitorState where
  tool_usage : SMap Nat
  agent_usage : SMap AgentData
  tool_token_usage : SMap ToolTokens
  sessions_analyzed : List String
deriving DecidableEq, Repr

/-- The state right after `__init__`: every table empty. -/
def initState : MonitorState := ⟨[], [], [], []⟩

/-- Set-insertion into a session set (`set.add`). -/
def insertSession (l : List String) (s : String) : List String :=
  if s ∈ l then l else l ++ [s]

/-- Source `track_agent_usage` (lines 120-131): bump the agent's invocation
count, add the entry-level usage counters to its totals, and record the
session id when truthy. -/
def track_agent_usage (st : MonitorState) (agent_name : String)
    (message : Message) (session_id : Option String) : MonitorState :=
  let usage := message.usage
  let d := st.agent_usage.findD agent_name {}
  let d := { d with
    count := d.count + 1,
    total_input_tokens := d.total_input_tokens + usage.input_tokens,
    total_output_tokens := d.total_output_tokens + usage.output_tokens,
    total_cache_creation_tokens :=
      d.total_cache_creation_tokens + usage.cache_creation_input_tokens,
    total_cache_read_tokens :=
      d.total_cache_read_tokens + usage.cache_read_input_tokens }
  let d := if strTruthy session_id
    then { d with sessions := insertSession d.sessions (session_id.getD "") }
    else d
  { st with agent_usage := st.agent_usage.insert agent_name d }

/-- Source `track_tool_tokens` (lines 133-140): add the entry-level usage
counters to the tool's running totals. -/
def track_tool_tokens (st : MonitorState) (tool_name : String)
    (message : Message) : MonitorState :=
  let usage := message.usage
  let t := st.tool_token_usage.findD tool_name {}
  let t' : ToolTokens :=
    { input_tokens := t.input_tokens + usage.input_tokens,
      output_tokens := t.output_tokens + usage.output_tokens,
      cache_creation_tokens :=
        t.cache_creation_tokens + usage.cache_creation_input_tokens,
      cache_read_tokens :=
        t.cache_read_tokens + usage.cache_read_input_tokens }
  { st with tool_token_usage := st.tool_token_usage.insert tool_name t' }

/-- Source line 109: `self.tool_usage[tool_name] += 1` on the `Counter`. -/
def incr_tool (st : MonitorState) (tool_name : String) : MonitorState :=
  { st with tool_usage :=
      st.tool_usage.insert tool_name (st.tool_usage.findD tool_name 0 + 1) }

/-- Body of the content loop of `process_entry` (lines 103-118) for one item. -/
def process_content_item (message : Message) (session_id : Option String)
    (st : MonitorState) : ContentItem → MonitorState
  | .other => st
  | .toolUse name tool_input =>
      if strTruthy name then
        let tool_name := name.getD ""
        let st1 := incr_tool st tool_name
        let st2 :=
          if tool_name = "Task" then
            let subagent := pyOr tool_input.subagent_type tool_input.agent
            if strTruthy subagent then
              track_agent_usage st1 (subagent.getD "") message session_id
            else st1
          else st1
        track_tool_tokens st2 tool_name message
      else st

/-- The part of `process_entry` after the time filter (lines 93-118):
record the session id when truthy, then walk the content list. -/
def process_retained (st : MonitorState) (entry : Entry) : MonitorState :=
  let session_id := entry.sessionId
  let st1 := if strTruthy session_id
    then { st with sessions_analyzed :=
            insertSession st.sessions_analyzed (session_id.getD "") }
    else st
  match entry.message.content with
  | .notList => st1
  | .items l => l.foldl (process_content_item entry.message session_id) st1

/-- Source `process_entry` (lines 81-118): drop the entry when its timestamp
parses to an instant strictly before the cutoff; otherwise (at/after cutoff,
absent, or unparseable — the `ValueError` is passed over) process it. -/
def process_entry (cutoff : Int) (st : MonitorState) (entry : Entry) :
    MonitorState :=
  match entry.timestamp with
  | .parsed t => if t < cutoff then st else process_retained st entry
  | .unparseable _ => process_retained st entry
  | .absent => process_retained st entry

/-- Whether the time filter keeps the entry (does not `return` early). -/
def retained (cutoff : Int) (entry : Entry) : Bool :=
  match entry.timestamp with
  | .parsed t => !(t < cutoff)
  | _ => true

/-- Process a list of entries in order. -/
def process_entries (cutoff : Int) (st : MonitorState) (entries : List Entry) :
    MonitorState :=
  entries.foldl (process_entry cutoff) st

/-- One raw line of a JSONL session file, by the outcome of `json.loads`:
blank (skipped), malformed JSON (`JSONDecodeError`, skipped), or a valid
entry. -/
inductive RawLine where
  | blank : RawLine
  | malformed : RawLine
  | valid (e : Entry) : RawLine
deriving DecidableEq, Repr

/-- Source `parse_session_file` (lines 66-79): blank and malformed lines are
skipped, valid entries are processed, and the loop always continues. -/
def parse_session_file (cutoff : Int) (st : MonitorState)
    (lines : List RawLine) : MonitorState :=
  lines.foldl (fun s l =>
    match l with
    | .blank => s
    | .malformed => s
    | .valid e => process_entry cutoff s e) st

/-- The tool call count the report reads (`self.tool_usage[tool]`, 0 when absent). -/
def toolCount (st : MonitorState) (tool : String) : Nat :=
  st.tool_usage.findD tool 0

/-- The per-tool token totals record (zeros when absent). -/
def toolTok (st : MonitorState) (tool : String) : ToolTokens :=
  st.tool_token_usage.findD tool {}

/-- The per-agent record (fresh zero record when absent). -/
def agentData (st : MonitorState) (agent : String) : AgentData :=
  st.agent_usage.findD agent {}

/-- One row of the token-consumption table of `generate_text_report`. -/
structure Consumer where
  name : String
  total_billable : Int
  total_cache_read : Int
  cache_efficiency : ℚ
  calls : Nat
deriving DecidableEq, Repr

/-- Source lines 227-240: the consumer row built for one agent. Output tokens
are weighted 3x into the billable total; efficiency is the cache-read share
of billable-plus-cache-read, as a percentage, 0 when the denominator is not
positive. Python float division is modelled exactly over `ℚ`. -/
def mkAgentConsumer (agent : String) (d : AgentData) : Consumer :=
  let total_billable := d.total_input_tokens + d.total_output_tokens * 3 +
    d.total_cache_creation_tokens
  let total_with_cache := total_billable + d.total_cache_read_tokens
  let cache_efficiency : ℚ :=
    if 0 < total_with_cache
    then (d.total_cache_read_tokens : ℚ) / (total_with_cache : ℚ) * 100
    else 0
  ⟨"Agent: " ++ agent, total_billable, d.total_cache_read_tokens,
    cache_efficiency, d.count⟩

/-- Source lines 242-256: the consumer row built for one tool. -/
def mkToolConsumer (tool : String) (tokens : ToolTokens) (calls : Nat) :
    Consumer :=
  let total_billable := tokens.input_tokens + tokens.output_tokens * 3 +
    tokens.cache_creation_tokens
  let total_with_cache := total_billable + tokens.cache_read_tokens
  let cache_efficiency : ℚ :=
    if 0 < total_with_cache
    then (tokens.cache_read_tokens : ℚ) / (total_with_cache : ℚ) * 100
    else 0
  ⟨"Tool: " ++ tool, total_billable, tokens.cache_read_tokens,
    cache_efficiency, calls⟩

/-- Source lines 224-256: all consumer rows, agents then tools. (The source
then sorts this list descending by billable tokens for the top-10 display;
the sums taken below are order-independent, so the sort is omitted here.) -/
def token_consumers (st : MonitorState) : List Consumer :=
  st.agent_usage.map (fun p => mkAgentConsumer p.1 p.2) ++
  st.tool_token_usage.map
    (fun p => mkToolConsumer p.1 p.2 (st.tool_usage.findD p.1 0))

/-- Source lines 291-292: input tokens summed across tools and agents. -/
def total_input_all (st : MonitorState) : Int :=
  (st.tool_token_usage.map (fun p => p.2.input_tokens)).sum +
  (st.agent_usage.map (fun p => p.2.total_input_tokens)).sum

/-- Source lines 293-294: output tokens summed across tools and agents. -/
def total_output_all (st : MonitorState) : Int :=
  (st.tool_token_usage.map (fun p => p.2.output_tokens)).sum +
  (st.agent_usage.map (fun p => p.2.total_output_tokens)).sum

/-- Source lines 295-296: cache-creation tokens summed across tools and agents. -/
def total_cache_create_all (st : MonitorState) : Int :=
  (st.tool_token_usage.map (fun p => p.2.cache_creation_tokens)).sum +
  (st.agent_usage.map (fun p => p.2.total_cache_creation_tokens)).sum

/-- Source line 276: cache-read tokens summed over all consumer rows. -/
def total_cache_read_all (st : MonitorState) : Int :=
  ((token_consumers st).map (fun c => c.total_cache_read)).sum

/-- Source lines 286-303: the estimated cost in dollars, at $3/M input,
$15/M output, $3/M cache creation and $0.30/M cache read, over `ℚ`. -/
def estimated_cost (st : MonitorState) : ℚ :=
  ((total_input_all st : ℚ) / 1000000) * 3 +
  ((total_output_all st : ℚ) / 1000000) * 15 +
  ((total_cache_create_all st : ℚ) / 1000000) * 3 +
  ((total_cache_read_all st : ℚ) / 1000000) * (3 / 10)

/-- Whether a content item is a `tool_use` block named exactly `T`. -/
def itemNamed (T : String) : ContentItem → Bool
  | .toolUse (some n) _ => n == T
  | _ => false

/-- The number of `tool_use` content blocks of an entry named exactly `T`
(0 when `message.content` is not a list): the claimed measure of how often
tool `T` is counted. -/
def entryToolUseCount (e : Entry) (T : String) : Nat :=
  match e.message.content with
  | .notList => 0
  | .items l => (l.filter (itemNamed T)).length

/-- The sub-agent a content item resolves to: the item must be a `tool_use`
block with a truthy name equal to `"Task"` and a truthy
`input.subagent_type or input.agent` (source lines 104-114). -/
def itemAgent : ContentItem → Option String
  | .other => none
  | .toolUse name tool_input =>
      if strTruthy name then
        if name.getD "" = "Task" then
          let s := pyOr tool_input.subagent_type tool_input.agent
          if strTruthy s then some (s.getD "") else none
        else none
      else none

/-- How many content items of a list resolve to sub-agent `a`. -/
def agentHits (a : String) (l : List ContentItem) : Nat :=
  (l.filter (fun i => itemAgent i = some a)).length

/-- All four usage counters of the entry are non-negative (the spec's data
model declares `TokenUsage` counters non-negative). -/
def UsageNonneg (e : Entry) : Prop :=
  0 ≤ e.message.usage.input_tokens ∧ 0 ≤ e.message.usage.output_tokens ∧
  0 ≤ e.message.usage.cache_creation_input_tokens ∧
  0 ≤ e.message.usage.cache_read_input_tokens

instance (e : Entry) : Decidable (UsageNonneg e) := by
  unfold UsageNonneg; infer_instance

/-- Pointwise order on aggregation states: every numeric aggregate of `s`
is at most the corresponding aggregate of `t`. -/
def StateLE (s t : MonitorState) : Prop :=
  (∀ T, toolCount s T ≤ toolCount t T) ∧
  (∀ T, (toolTok s T).input_tokens ≤ (toolTok t T).input_tokens ∧
        (toolTok s T).output_tokens ≤ (toolTok t T).output_tokens ∧
        (toolTok s T).cache_creation_tokens ≤ (toolTok t T).cache_creation_tokens ∧
        (toolTok s T).cache_read_tokens ≤ (toolTok t T).cache_read_tokens) ∧
  (∀ A, (agentData s A).count ≤ (agentData t A).count ∧
        (agentData s A).total_input_tokens ≤ (agentData t A).total_input_tokens ∧
        (agentData s A).total_output_tokens ≤ (agentData t A).total_output_tokens ∧
        (agentData s A).total_cache_creation_tokens ≤
          (agentData t A).total_cache_creation_tokens ∧
        (agentData s A).total_cache_read_tokens ≤
          (agentData t A).total_cache_read_tokens)

/-- Every (integer-valued) aggregate of the state is non-negative. -/
def StateNonneg (s : MonitorState) : Prop :=
  ∀ N, 0 ≤ (toolTok s N).input_tokens ∧ 0 ≤ (toolTok s N).output_tokens ∧
       0 ≤ (toolTok s N).cache_creation_tokens ∧
       0 ≤ (toolTok s N).cache_read_tokens ∧
       0 ≤ (agentData s N).total_input_tokens ∧
       0 ≤ (agentData s N).total_output_tokens ∧
       0 ≤ (agentData s N).total_cache_creation_tokens ∧
       0 ≤ (agentData s N).total_cache_read_tokens

/-- A state holding a single tool with one call and exactly one million input
tokens, the literal cost scenario of the spec. -/
def singleToolState : MonitorState :=
  ⟨[("Read", 1)], [], [("Read", ⟨1000000, 0, 0, 0⟩)], []⟩

/-- A concrete in-window entry: a `Read` call and a `Task` call dispatching
sub-agent `"reviewer"`, with a session id and a full usage object. -/
def entryA : Entry :=
  { timestamp := .parsed 10,
    sessionId := some "s1",
    message :=
      { content := .items
          [.toolUse (some "Read") {},
           .toolUse (some "Task") { subagent_type := some "reviewer" }],
        usage :=
          { input_tokens := 5, output_tokens := 7,
            cache_creation_input_tokens := 2,
            cache_read_input_tokens := 9 } } }

/-- A concrete entry dated strictly before any non-negative cutoff. -/
def entryOld : Entry :=
  { entryA with timestamp := .parsed (-5) }

/-- A concrete entry whose timestamp is present but unparseable. -/
def entryU : Entry :=
  { entryA with timestamp := .unparseable "not-a-date" }

/-- A concrete entry with usage `input_tokens = 100` and two `tool_use`
blocks both named `"Read"`, the double-count scenario of the spec. -/
def entryTwoRead : Entry :=
  { timestamp := .absent,
    sessionId := none,
    message :=
      { content := .items
          [.toolUse (some "Read") {}, .toolUse (some "Read") {}],
        usage := { input_tokens := 100 } } }

/-- A concrete entry with a `Task` block whose `input.subagent_type` is the
empty string (falsy) and whose `input.agent` is `"helper"`. -/
def entryFallback : Entry :=
  { timestamp := .absent,
    sessionId := some "s2",
    message :=
      { content := .items
          [.toolUse (some "Task")
            { subagent_type := some "", agent := some "helper" }],
        usage := { input_tokens := 4, output_tokens := 6 } } }

/-! ## Map lemmas -/

theorem SMap.find_insert {α : Type} (m : SMap α) (k j : String) (v : α) :
    (m.insert k v).find j = if j = k then some v else m.find j := by
  induction m with
  | nil =>
      simp only [SMap.insert, SMap.find]
      by_cases h : j = k
      · simp [h]
      · simp [h, Ne.symm h]
  | cons p m ih =>
      obtain ⟨k', v'⟩ := p
      simp only [SMap.insert]
      by_cases hk : k' = k
      · subst hk
        simp only [if_pos rfl, SMap.find]
        by_cases h : j = k'
        · simp [h]
        · simp [h, Ne.symm h]
      · simp only [if_neg hk, SMap.find, ih]
        by_cases h : j = k
        · subst h
          simp [hk]
        · simp [h]

theorem SMap.findD_insert {α : Type} (m : SMap α) (k j : String) (v d : α) :
    (m.insert k v).findD j d = if j = k then v else m.findD j d := by
  simp only [SMap.findD, SMap.find_insert]
  by_cases h : j = k <;> simp [h]

theorem SMap.hasKey_insert {α : Type} (m : SMap α) (k j : String) (v : α) :
    (m.insert k v).hasKey j = (decide (j = k) || m.hasKey j) := by
  simp only [SMap.hasKey, SMap.find_insert]
  by_cases h : j = k <;> simp [h]

theorem SMap.sumBy_insert_of_find_none {α : Type} (m : SMap α) (k : String)
    (v : α) (f : α → Nat) (h : m.find k = none) :
    (m.insert k v).sumBy f = m.sumBy f + f v := by
  induction m with
  | nil => simp [SMap.insert, SMap.sumBy]
  | cons p m ih =>
      obtain ⟨k', v'⟩ := p
      simp only [SMap.find] at h
      by_cases hk : k' = k
      · simp [hk] at h
      · simp only [if_neg hk] at h
        simp only [SMap.insert, if_neg hk, SMap.sumBy, List.map_cons,
          List.sum_cons] at *
        rw [ih h]
        omega

theorem SMap.sumBy_insert_of_find_some {α : Type} (m : SMap α) (k : String)
    (v w : α) (f : α → Nat) (h : m.find k = some w) :
    (m.insert k v).sumBy f + f w = m.sumBy f + f v := by
  induction m with
  | nil => simp [SMap.find] at h
  | cons p m ih =>
      obtain ⟨k', v'⟩ := p
      simp only [SMap.find] at h
      by_cases hk : k' = k
      · simp only [if_pos hk] at h
        obtain rfl : v' = w := by injection h
        simp only [SMap.insert, if_pos hk, SMap.sumBy, List.map_cons,
          List.sum_cons]
        omega
      · simp only [if_neg hk] at h
        simp only [SMap.insert, if_neg hk, SMap.sumBy, List.map_cons,
          List.sum_cons] at *
        have := ih h
        omega

/-! ## Accessor behaviour of the tracking operations -/

theorem toolCount_incr_tool (st : MonitorState) (n T : String) :
    toolCount (incr_tool st n) T =
      if T = n then toolCount st T + 1 else toolCount st T := by
  simp only [toolCount, incr_tool, SMap.findD_insert]
  by_cases h : T = n <;> simp [h]

@[simp] theorem toolTok_incr_tool (st : MonitorState) (n T : String) :
    toolTok (incr_tool st n) T = toolTok st T := rfl

@[simp] theorem agentData_incr_tool (st : MonitorState) (n A : String) :
    agentData (incr_tool st n) A = agentData st A := rfl

@[simp] theorem toolCount_track_tool_tokens (st : MonitorState) (n : String)
    (msg : Message) (T : String) :
    toolCount (track_tool_tokens st n msg) T = toolCount st T := rfl

@[simp] theorem agentData_track_tool_tokens (st : MonitorState) (n : String)
    (msg : Message) (A : String) :
    agentData (track_tool_tokens st n msg) A = agentData st A := rfl

theorem toolTok_track_tool_tokens (st : MonitorState) (n : String)
    (msg : Message) (T : String) :
    toolTok (track_tool_tokens st n msg) T =
      if T = n then
        { input_tokens := (toolTok st T).input_tokens + msg.usage.input_tokens,
          output_tokens :=
            (toolTok st T).output_tokens + msg.usage.output_tokens,
          cache_creation_tokens := (toolTok st T).cache_creation_tokens +
            msg.usage.cache_creation_input_tokens,
          cache_read_tokens := (toolTok st T).cache_read_tokens +
            msg.usage.cache_read_input_tokens }
      else toolTok st T := by
  simp only [toolTok, track_tool_tokens, SMap.findD_insert]
  by_cases h : T = n
  · subst h; simp
  · simp [h]

@[simp] theorem toolCount_track_agent_usage (st : MonitorState) (a : String)
    (msg : Message) (sid : Option String) (T : String) :
    toolCount (track_agent_usage st a msg sid) T = toolCount st T := rfl

@[simp] theorem toolTok_track_agent_usage (st : MonitorState) (a : String)
    (msg : Message) (sid : Option String) (T : String) :
    toolTok (track_agent_usage st a msg sid) T = toolTok st T := rfl

theorem agentData_track_agent_usage_count (st : MonitorState) (a : String)
    (msg : Message) (sid : Option String) (A : String) :
    (agentData (track_agent_usage st a msg sid) A).count =
      if A = a then (agentData st A).count + 1
      else (agentData st A).count := by
  simp only [agentData, track_agent_usage, SMap.findD_insert]
  by_cases h : A = a
  · subst h
    cases hs : strTruthy sid <;> simp [hs]
  · simp [h]

theorem agentData_track_agent_usage_input (st : MonitorState) (a : String)
    (msg : Message) (sid : Option String) (A : String) :
    (agentData (track_agent_usage st a msg sid) A).total_input_tokens =
      if A = a then
        (agentData st A).total_input_tokens + msg.usage.input_tokens
      else (agentData st A).total_input_tokens := by
  simp only [agentData, track_agent_usage, SMap.findD_insert]
  by_cases h : A = a
  · subst h
    cases hs : strTruthy sid <;> simp [hs]
  · simp [h]

theorem agentData_track_agent_usage_output (st : MonitorState) (a : String)
    (msg : Message) (sid : Option String) (A : String) :
    (agentData (track_agent_usage st a msg sid) A).total_output_tokens =
      if A = a then
        (agentData st A).total_output_tokens + msg.usage.output_tokens
      else (agentData st A).total_output_tokens := by
  simp only [agentData, track_agent_usage, SMap.findD_insert]
  by_cases h : A = a
  · subst h
    cases hs : strTruthy sid <;> simp [hs]
  · simp [h]

theorem agentData_track_agent_usage_cc (st : MonitorState) (a : String)
    (msg : Message) (sid : Option String) (A : String) :
    (agentData (track_agent_usage st a msg sid) A).total_cache_creation_tokens =
      if A = a then
        (agentData st A).total_cache_creation_tokens +
          msg.usage.cache_creation_input_tokens
      else (agentData st A).total_cache_creation_tokens := by
  simp only [agentData, track_agent_usage, SMap.findD_insert]
  by_cases h : A = a
  · subst h
    cases hs : strTruthy sid <;> simp [hs]
  · simp [h]

theorem agentData_track_agent_usage_cr (st : MonitorState) (a : String)
    (msg : Message) (sid : Option String) (A : String) :
    (agentData (track_agent_usage st a msg sid) A).total_cache_read_tokens =
      if A = a then
        (agentData st A).total_cache_read_tokens +
          msg.usage.cache_read_input_tokens
      else (agentData st A).total_cache_read_tokens := by
  simp only [agentData, track_agent_usage, SMap.findD_insert]
  by_cases h : A = a
  · subst h
    cases hs : strTruthy sid <;> simp [hs]
  · simp [h]

/-! ## The content loop, item by item -/

theorem toolCount_item (msg : Message) (sid : Option String)
    (st : MonitorState) (i : ContentItem) (T : String) (hT : T ≠ "") :
    toolCount (process_content_item msg sid st i) T =
      toolCount st T + (if itemNamed T i then 1 else 0) := by
  cases i with
  | other => simp [process_content_item, itemNamed]
  | toolUse name ti =>
      cases name with
      | none => simp [process_content_item, itemNamed, strTruthy]
      | some s =>
          by_cases hs : s = ""
          · subst hs
            have : ("" == T) = false := by
              simp [Ne.symm hT]
            simp [process_content_item, itemNamed, strTruthy, this]
          · have hst : strTruthy (some s) = true := by simp [strTruthy, hs]
            simp only [process_content_item, hst, if_true, Option.getD_some]
            rw [toolCount_track_tool_tokens]
            have hmid : toolCount
                (if s = "Task" then
                  (if strTruthy (pyOr ti.subagent_type ti.agent) then
                    track_agent_usage (incr_tool st s)
                      ((pyOr ti.subagent_type ti.agent).getD "") msg sid
                  else incr_tool st s)
                else incr_tool st s) T = toolCount (incr_tool st s) T := by
              by_cases ht : s = "Task"
              · cases hsub : strTruthy (pyOr ti.subagent_type ti.agent) <;>
                  simp [ht, hsub]
              · simp [ht]
            rw [hmid, toolCount_incr_tool]
            simp only [itemNamed]
            by_cases h : T = s
            · subst h; simp
            · simp only [h, if_false]
              have hsT : (s == T) = false :=
                beq_eq_false_iff_ne.mpr (fun hh => h hh.symm)
              simp [hsT]

theorem toolCount_foldl (msg : Message) (sid : Option String)
    (l : List ContentItem) (st : MonitorState) (T : String) (hT : T ≠ "") :
    toolCount (l.foldl (process_content_item msg sid) st) T =
      toolCount st T + (l.filter (itemNamed T)).length := by
  induction l generalizing st with
  | nil => simp
  | cons i l ih =>
      simp only [List.foldl_cons, List.filter_cons]
      rw [ih]
      rw [toolCount_item msg sid st i T hT]
      by_cases h : itemNamed T i
      · simp [h]
        omega
      · simp [h]

/-! ## From one entry to the whole filter/loop -/

@[simp] theorem toolCount_set_sessions (st : MonitorState) (l : List String)
    (T : String) : toolCount { st with sessions_analyzed := l } T =
      toolCount st T := rfl

@[simp] theorem toolTok_set_sessions (st : MonitorState) (l : List String)
    (T : String) : toolTok { st with sessions_analyzed := l } T =
      toolTok st T := rfl

@[simp] theorem agentData_set_sessions (st : MonitorState) (l : List String)
    (A : String) : agentData { st with sessions_analyzed := l } A =
      agentData st A := rfl

theorem process_entry_of_retained (cutoff : Int) (st : MonitorState)
    (e : Entry) (h : retained cutoff e = true) :
    process_entry cutoff st e = process_retained st e := by
  cases hts : e.timestamp with
  | parsed t =>
      simp only [retained, hts] at h
      simp only [process_entry, hts]
      rw [if_neg]
      simpa using h
  | absent => simp [process_entry, hts]
  | unparseable s => simp [process_entry, hts]

theorem process_entry_of_excluded (cutoff : Int) (st : MonitorState)
    (e : Entry) (h : retained cutoff e = false) :
    process_entry cutoff st e = st := by
  cases hts : e.timestamp with
  | parsed t =>
      simp only [retained, hts] at h
      simp only [process_entry, hts]
      rw [if_pos]
      simpa using h
  | absent => simp [retained, hts] at h
  | unparseable s => simp [retained, hts] at h

theorem toolCount_process_retained (st : MonitorState) (e : Entry)
    (T : String) (hT : T ≠ "") :
    toolCount (process_retained st e) T =
      toolCount st T + entryToolUseCount e T := by
  simp only [process_retained]
  cases hc : e.message.content with
  | notList =>
      cases hs : strTruthy e.sessionId <;>
        simp [hs, hc, entryToolUseCount]
  | items l =>
      cases hs : strTruthy e.sessionId <;>
        simp [hs, hc, entryToolUseCount, toolCount_foldl _ _ _ _ _ hT]

/-- C1: processing a retained entry increments each (non-empty-named) tool's
call count by exactly the number of `tool_use` content blocks bearing that
name; blocks with an absent or empty name are counted for no tool. -/
theorem claim_C1 (cutoff : Int) (st : MonitorState) (e : Entry) (T : String)
    (hret : retained cutoff e = true) (hT : T ≠ "") :
    toolCount (process_entry cutoff st e) T =
      toolCount st T + entryToolUseCount e T := by
  rw [process_entry_of_retained _ _ _ hret,
    toolCount_process_retained _ _ _ hT]

/-- Witness for C1 at a concrete retained entry and tool `"Read"`. -/
theorem claim_C1_witness :
    retained 0 entryA = true ∧ "Read" ≠ "" ∧
    toolCount (process_entry 0 initState entryA) "Read" =
      toolCount initState "Read" + entryToolUseCount entryA "Read" :=
  ⟨by decide, by decide, claim_C1 0 initState entryA "Read" (by decide)
    (by decide)⟩

/-- C2: an entry whose timestamp parses strictly before the cutoff leaves the
whole aggregation state untouched; an entry at/after the cutoff, or with no
timestamp, is processed normally (i.e. by the post-filter body). -/
theorem claim_C2 (cutoff : Int) (st : MonitorState) (e : Entry) (t : Int) :
    (e.timestamp = .parsed t → t < cutoff →
      process_entry cutoff st e = st) ∧
    (e.timestamp = .parsed t → cutoff ≤ t →
      process_entry cutoff st e = process_retained st e) ∧
    (e.timestamp = .absent →
      process_entry cutoff st e = process_retained st e) := by
  refine ⟨?_, ?_, ?_⟩
  · intro h hlt
    apply process_entry_of_excluded
    simp [retained, h, hlt]
  · intro h hge
    apply process_entry_of_retained
    simp [retained, h, not_lt.mpr hge]
  · intro h
    apply process_entry_of_retained
    simp [retained, h]

/-- Witness for C2: a too-old entry is dropped, an in-window entry and an
entry without a timestamp are processed. -/
theorem claim_C2_witness :
    (entryOld.timestamp = .parsed (-5) ∧ (-5 : Int) < 0 ∧
      process_entry 0 initState entryOld = initState) ∧
    (entryA.timestamp = .parsed 10 ∧ (0 : Int) ≤ 10 ∧
      process_entry 0 initState entryA = process_retained initState entryA) ∧
    (entryTwoRead.timestamp = .absent ∧
      process_entry 0 initState entryTwoRead =
        process_retained initState entryTwoRead) :=
  ⟨⟨rfl, by decide, (claim_C2 0 initState entryOld (-5)).1 rfl (by decide)⟩,
   ⟨rfl, by decide, (claim_C2 0 initState entryA 10).2.1 rfl (by decide)⟩,
   ⟨rfl, (claim_C2 0 initState entryTwoRead 0).2.2 rfl⟩⟩

/-- C3: an entry whose timestamp is present but unparseable fails open — it
is processed exactly as if it had no timestamp, and the file loop continues
with the remaining lines. -/
theorem claim_C3 (cutoff : Int) (st : MonitorState) (e : Entry) (s : String)
    (rest : List RawLine) (h : e.timestamp = .unparseable s) :
    process_entry cutoff st e =
      process_entry cutoff st { e with timestamp := .absent } ∧
    parse_session_file cutoff st (.valid e :: rest) =
      parse_session_file cutoff
        (process_entry cutoff st { e with timestamp := .absent }) rest := by
  have h1 : process_entry cutoff st e = process_retained st e := by
    simp [process_entry, h]
  have h2 : process_entry cutoff st { e with timestamp := .absent } =
      process_retained st e := rfl
  constructor
  · rw [h1, h2]
  · simp only [parse_session_file, List.foldl_cons]
    rw [h1, h2]

/-- Witness for C3 at a concrete entry with an unparseable timestamp. -/
theorem claim_C3_witness :
    entryU.timestamp = .unparseable "not-a-date" ∧
    process_entry 0 initState entryU =
      process_entry 0 initState { entryU with timestamp := .absent } ∧
    parse_session_file 0 initState [.valid entryU] =
      parse_session_file 0
        (process_entry 0 initState { entryU with timestamp := .absent }) [] :=
  ⟨rfl, (claim_C3 0 initState entryU "not-a-date" [] rfl).1,
    (claim_C3 0 initState entryU "not-a-date" [] rfl).2⟩

theorem toolTok_item (msg : Message) (sid : Option String)
    (st : MonitorState) (i : ContentItem) (T : String) (hT : T ≠ "") :
    toolTok (process_content_item msg sid st i) T =
      if itemNamed T i then
        { input_tokens := (toolTok st T).input_tokens + msg.usage.input_tokens,
          output_tokens :=
            (toolTok st T).output_tokens + msg.usage.output_tokens,
          cache_creation_tokens := (toolTok st T).cache_creation_tokens +
            msg.usage.cache_creation_input_tokens,
          cache_read_tokens := (toolTok st T).cache_read_tokens +
            msg.usage.cache_read_input_tokens }
      else toolTok st T := by
  cases i with
  | other => simp [process_content_item, itemNamed]
  | toolUse name ti =>
      cases name with
      | none => simp [process_content_item, itemNamed, strTruthy]
      | some s =>
          by_cases hs : s = ""
          · subst hs
            have hbeq : ("" == T) = false :=
              beq_eq_false_iff_ne.mpr (Ne.symm hT)
            simp [process_content_item, itemNamed, strTruthy, hbeq]
          · have hst : strTruthy (some s) = true := by simp [strTruthy, hs]
            simp only [process_content_item, hst, if_true, Option.getD_some]
            have hmid : toolTok
                (if s = "Task" then
                  (if strTruthy (pyOr ti.subagent_type ti.agent) then
                    track_agent_usage (incr_tool st s)
                      ((pyOr ti.subagent_type ti.agent).getD "") msg sid
                  else incr_tool st s)
                else incr_tool st s) T = toolTok st T := by
              by_cases ht : s = "Task"
              · cases hsub : strTruthy (pyOr ti.subagent_type ti.agent) <;>
                  simp [ht, hsub]
              · simp [ht]
            rw [toolTok_track_tool_tokens, hmid]
            simp only [itemNamed]
            by_cases h : T = s
            · subst h; simp
            · have hsT : (s == T) = false :=
                beq_eq_false_iff_ne.mpr (fun hh => h hh.symm)
              simp [h, hsT]

theorem agentData_item (msg : Message) (sid : Option String)
    (st : MonitorState) (i : ContentItem) (A : String) :
    (agentData (process_content_item msg sid st i) A).count =
      (agentData st A).count + (if itemAgent i = some A then 1 else 0) ∧
    (agentData (process_content_item msg sid st i) A).total_input_tokens =
      (agentData st A).total_input_tokens +
        (if itemAgent i = some A then msg.usage.input_tokens else 0) ∧
    (agentData (process_content_item msg sid st i) A).total_output_tokens =
      (agentData st A).total_output_tokens +
        (if itemAgent i = some A then msg.usage.output_tokens else 0) ∧
    (agentData (process_content_item msg sid st i) A).total_cache_creation_tokens =
      (agentData st A).total_cache_creation_tokens +
        (if itemAgent i = some A then
          msg.usage.cache_creation_input_tokens else 0) ∧
    (agentData (process_content_item msg sid st i) A).total_cache_read_tokens =
      (agentData st A).total_cache_read_tokens +
        (if itemAgent i = some A then
          msg.usage.cache_read_input_tokens else 0) := by
  cases i with
  | other => simp [process_content_item, itemAgent]
  | toolUse name ti =>
      cases name with
      | none => simp [process_content_item, itemAgent, strTruthy]
      | some s =>
          by_cases hs : s = ""
          · subst hs
            simp [process_content_item, itemAgent, strTruthy]
          · have hst : strTruthy (some s) = true := by simp [strTruthy, hs]
            simp only [process_content_item, itemAgent, hst, if_true,
              Option.getD_some]
            by_cases ht : s = "Task"
            · subst ht
              cases hsub : strTruthy (pyOr ti.subagent_type ti.agent)
              · simp [hsub]
              · simp only [hsub, if_true, if_pos rfl]
                rw [agentData_track_tool_tokens]
                rw [agentData_track_agent_usage_count,
                  agentData_track_agent_usage_input,
                  agentData_track_agent_usage_output,
                  agentData_track_agent_usage_cc,
                  agentData_track_agent_usage_cr]
                by_cases hA : A = (pyOr ti.subagent_type ti.agent).getD ""
                · simp [hA]
                · have hA2 : ¬ (pyOr ti.subagent_type ti.agent).getD "" = A :=
                    fun hh => hA hh.symm
                  simp [hA, hA2]
            · simp [ht]

/-- C4: the entry-level usage is attributed once per qualifying block — a
retained entry with `usage.input_tokens = 100` and two `tool_use` blocks both
named `"Read"` adds 200 (not 100) to tool `"Read"`'s input total. -/
theorem claim_C4 (cutoff : Int) (st : MonitorState) (e : Entry)
    (i1 i2 : ToolInput) (hret : retained cutoff e = true)
    (hu : e.message.usage.input_tokens = 100)
    (hc : e.message.content =
      .items [.toolUse (some "Read") i1, .toolUse (some "Read") i2]) :
    (toolTok (process_entry cutoff st e) "Read").input_tokens =
      (toolTok st "Read").input_tokens + 200 := by
  rw [process_entry_of_retained _ _ _ hret]
  have hT : ("Read" : String) ≠ "" := by decide
  simp only [process_retained, hc, List.foldl_cons, List.foldl_nil]
  rw [toolTok_item _ _ _ _ _ hT, toolTok_item _ _ _ _ _ hT]
  simp only [itemNamed, beq_self_eq_true, if_true, hu]
  cases hs : strTruthy e.sessionId <;> simp [hs] <;> omega

/-- Witness for C4 at the concrete double-`Read` entry. -/
theorem claim_C4_witness :
    retained 0 entryTwoRead = true ∧
    entryTwoRead.message.usage.input_tokens = 100 ∧
    entryTwoRead.message.content =
      .items [.toolUse (some "Read") {}, .toolUse (some "Read") {}] ∧
    (toolTok (process_entry 0 initState entryTwoRead) "Read").input_tokens =
      (toolTok initState "Read").input_tokens + 200 :=
  ⟨by decide, rfl, rfl,
    claim_C4 0 initState entryTwoRead {} {} (by decide) rfl rfl⟩

theorem agentData_foldl (msg : Message) (sid : Option String)
    (l : List ContentItem) (st : MonitorState) (A : String) :
    (agentData (l.foldl (process_content_item msg sid) st) A).count =
      (agentData st A).count + agentHits A l ∧
    (agentData (l.foldl (process_content_item msg sid) st) A).total_input_tokens =
      (agentData st A).total_input_tokens +
        (agentHits A l : Int) * msg.usage.input_tokens ∧
    (agentData (l.foldl (process_content_item msg sid) st) A).total_output_tokens =
      (agentData st A).total_output_tokens +
        (agentHits A l : Int) * msg.usage.output_tokens ∧
    (agentData (l.foldl (process_content_item msg sid) st) A).total_cache_creation_tokens =
      (agentData st A).total_cache_creation_tokens +
        (agentHits A l : Int) * msg.usage.cache_creation_input_tokens ∧
    (agentData (l.foldl (process_content_item msg sid) st) A).total_cache_read_tokens =
      (agentData st A).total_cache_read_tokens +
        (agentHits A l : Int) * msg.usage.cache_read_input_tokens := by
  induction l generalizing st with
  | nil => simp [agentHits]
  | cons i l ih =>
      obtain ⟨h1, h2, h3, h4, h5⟩ := agentData_item msg sid st i A
      obtain ⟨g1, g2, g3, g4, g5⟩ := ih (process_content_item msg sid st i)
      simp only [List.foldl_cons]
      refine ⟨?_, ?_, ?_, ?_, ?_⟩
      · rw [g1, h1]
        simp only [agentHits, List.filter_cons]
        by_cases hA : itemAgent i = some A <;> simp [hA]
        all_goals omega
      · rw [g2, h2]
        simp only [agentHits, List.filter_cons]
        by_cases hA : itemAgent i = some A <;> simp [hA]
        all_goals ring
      · rw [g3, h3]
        simp only [agentHits, List.filter_cons]
        by_cases hA : itemAgent i = some A <;> simp [hA]
        all_goals ring
      · rw [g4, h4]
        simp only [agentHits, List.filter_cons]
        by_cases hA : itemAgent i = some A <;> simp [hA]
        all_goals ring
      · rw [g5, h5]
        simp only [agentHits, List.filter_cons]
        by_cases hA : itemAgent i = some A <;> simp [hA]
        all_goals ring

@[simp] theorem agentData_session_if (st : MonitorState) (c : Prop)
    [Decidable c] (x : List String) (A : String) :
    agentData (if c then { st with sessions_analyzed := x } else st) A =
      agentData st A := by
  by_cases h : c <;> simp [h]

theorem agentData_process_retained (st : MonitorState) (e : Entry)
    (A : String) (l : List ContentItem)
    (hc : e.message.content = .items l) :
    (agentData (process_retained st e) A).count =
      (agentData st A).count + agentHits A l ∧
    (agentData (process_retained st e) A).total_input_tokens =
      (agentData st A).total_input_tokens +
        (agentHits A l : Int) * e.message.usage.input_tokens ∧
    (agentData (process_retained st e) A).total_output_tokens =
      (agentData st A).total_output_tokens +
        (agentHits A l : Int) * e.message.usage.output_tokens ∧
    (agentData (process_retained st e) A).total_cache_creation_tokens =
      (agentData st A).total_cache_creation_tokens +
        (agentHits A l : Int) * e.message.usage.cache_creation_input_tokens ∧
    (agentData (process_retained st e) A).total_cache_read_tokens =
      (agentData st A).total_cache_read_tokens +
        (agentHits A l : Int) * e.message.usage.cache_read_input_tokens := by
  simp only [process_retained, hc]
  cases hs : strTruthy e.sessionId
  · simp only [hs, Bool.false_eq_true, if_false]
    exact agentData_foldl e.message e.sessionId l st A
  · simp only [hs, if_true]
    have := agentData_foldl e.message e.sessionId l
      { st with sessions_analyzed :=
          insertSession st.sessions_analyzed (e.sessionId.getD "") } A
    simpa using this

/-- C8: agent attribution falls back to `input.agent` when `subagent_type` is
falsy: processing a retained entry adds, for every agent `a`, exactly the
number of `Task` blocks resolving to `a` to `a`'s invocation count, and that
multiple of the entry's usage to `a`'s totals; a `Task` block with falsy
`subagent_type` and truthy `agent` resolves to its `agent` field. -/
theorem claim_C8 (cutoff : Int) (st : MonitorState) (e : Entry) (a : String)
    (l : List ContentItem) (hret : retained cutoff e = true)
    (hc : e.message.content = .items l) :
    ((agentData (process_entry cutoff st e) a).count =
       (agentData st a).count + agentHits a l ∧
     (agentData (process_entry cutoff st e) a).total_input_tokens =
       (agentData st a).total_input_tokens +
         (agentHits a l : Int) * e.message.usage.input_tokens ∧
     (agentData (process_entry cutoff st e) a).total_output_tokens =
       (agentData st a).total_output_tokens +
         (agentHits a l : Int) * e.message.usage.output_tokens ∧
     (agentData (process_entry cutoff st e) a).total_cache_creation_tokens =
       (agentData st a).total_cache_creation_tokens +
         (agentHits a l : Int) * e.message.usage.cache_creation_input_tokens ∧
     (agentData (process_entry cutoff st e) a).total_cache_read_tokens =
       (agentData st a).total_cache_read_tokens +
         (agentHits a l : Int) * e.message.usage.cache_read_input_tokens) ∧
    (∀ ti : ToolInput, strTruthy ti.subagent_type = false →
      strTruthy ti.agent = true →
      itemAgent (.toolUse (some "Task") ti) = ti.agent) := by
  constructor
  · rw [process_entry_of_retained _ _ _ hret]
    exact agentData_process_retained st e a l hc
  · intro ti h1 h2
    cases hag : ti.agent with
    | none => rw [hag] at h2; simp [strTruthy] at h2
    | some x =>
        have hT : strTruthy (some "Task") = true := by decide
        simp [itemAgent, pyOr, h1, h2, hT, hag]
        exact hag ▸ h2

/-- Witness for C8 at the concrete fallback entry. -/
theorem claim_C8_witness :
    retained 0 entryFallback = true ∧
    entryFallback.message.content = .items
      [.toolUse (some "Task")
        { subagent_type := some "", agent := some "helper" }] ∧
    (agentData (process_entry 0 initState entryFallback) "helper").count =
      (agentData initState "helper").count +
        agentHits "helper"
          [.toolUse (some "Task")
            { subagent_type := some "", agent := some "helper" }] :=
  ⟨by decide, rfl,
    (claim_C8 0 initState entryFallback "helper"
      [.toolUse (some "Task")
        { subagent_type := some "", agent := some "helper" }]
      (by decide) rfl).1.1⟩

/-! ## Monotonicity of the aggregates -/

@[simp] theorem toolCount_session_if (st : MonitorState) (c : Prop)
    [Decidable c] (x : List String) (T : String) :
    toolCount (if c then { st with sessions_analyzed := x } else st) T =
      toolCount st T := by
  by_cases h : c <;> simp [h]

@[simp] theorem toolTok_session_if (st : MonitorState) (c : Prop)
    [Decidable c] (x : List String) (T : String) :
    toolTok (if c then { st with sessions_analyzed := x } else st) T =
      toolTok st T := by
  by_cases h : c <;> simp [h]

theorem StateLE_refl (s : MonitorState) : StateLE s s :=
  ⟨fun _ => le_rfl, fun _ => ⟨le_rfl, le_rfl, le_rfl, le_rfl⟩,
   fun _ => ⟨le_rfl, le_rfl, le_rfl, le_rfl, le_rfl⟩⟩

theorem StateLE_trans {r s t : MonitorState} (h1 : StateLE r s)
    (h2 : StateLE s t) : StateLE r t := by
  obtain ⟨a1, a2, a3⟩ := h1
  obtain ⟨b1, b2, b3⟩ := h2
  refine ⟨fun T => le_trans (a1 T) (b1 T), fun T => ?_, fun A => ?_⟩
  · obtain ⟨x1, x2, x3, x4⟩ := a2 T
    obtain ⟨y1, y2, y3, y4⟩ := b2 T
    exact ⟨le_trans x1 y1, le_trans x2 y2, le_trans x3 y3, le_trans x4 y4⟩
  · obtain ⟨x1, x2, x3, x4, x5⟩ := a3 A
    obtain ⟨y1, y2, y3, y4, y5⟩ := b3 A
    exact ⟨le_trans x1 y1, le_trans x2 y2, le_trans x3 y3, le_trans x4 y4,
      le_trans x5 y5⟩

theorem toolCount_item_le (msg : Message) (sid : Option String)
    (st : MonitorState) (i : ContentItem) (T : String) :
    toolCount st T ≤ toolCount (process_content_item msg sid st i) T := by
  cases i with
  | other => simp [process_content_item]
  | toolUse name ti =>
      cases name with
      | none => simp [process_content_item, strTruthy]
      | some s =>
          by_cases hs : s = ""
          · subst hs; simp [process_content_item, strTruthy]
          · have hst : strTruthy (some s) = true := by simp [strTruthy, hs]
            simp only [process_content_item, hst, if_true, Option.getD_some]
            have hmid : toolCount
                (if s = "Task" then
                  (if strTruthy (pyOr ti.subagent_type ti.agent) then
                    track_agent_usage (incr_tool st s)
                      ((pyOr ti.subagent_type ti.agent).getD "") msg sid
                  else incr_tool st s)
                else incr_tool st s) T = toolCount (incr_tool st s) T := by
              by_cases ht : s = "Task"
              · cases hsub : strTruthy (pyOr ti.subagent_type ti.agent) <;>
                  simp [ht, hsub]
              · simp [ht]
            rw [toolCount_track_tool_tokens, hmid, toolCount_incr_tool]
            by_cases h : T = s <;> simp [h]

theorem toolTok_item_le (msg : Message) (sid : Option String)
    (st : MonitorState) (i : ContentItem) (T : String)
    (hin : 0 ≤ msg.usage.input_tokens) (hout : 0 ≤ msg.usage.output_tokens)
    (hcc : 0 ≤ msg.usage.cache_creation_input_tokens)
    (hcr : 0 ≤ msg.usage.cache_read_input_tokens) :
    (toolTok st T).input_tokens ≤
      (toolTok (process_content_item msg sid st i) T).input_tokens ∧
    (toolTok st T).output_tokens ≤
      (toolTok (process_content_item msg sid st i) T).output_tokens ∧
    (toolTok st T).cache_creation_tokens ≤
      (toolTok (process_content_item msg sid st i) T).cache_creation_tokens ∧
    (toolTok st T).cache_read_tokens ≤
      (toolTok (process_content_item msg sid st i) T).cache_read_tokens := by
  cases i with
  | other => simp [process_content_item]
  | toolUse name ti =>
      cases name with
      | none => simp [process_content_item, strTruthy]
      | some s =>
          by_cases hs : s = ""
          · subst hs; simp [process_content_item, strTruthy]
          · have hst : strTruthy (some s) = true := by simp [strTruthy, hs]
            simp only [process_content_item, hst, if_true, Option.getD_some]
            have hmid : toolTok
                (if s = "Task" then
                  (if strTruthy (pyOr ti.subagent_type ti.agent) then
                    track_agent_usage (incr_tool st s)
                      ((pyOr ti.subagent_type ti.agent).getD "") msg sid
                  else incr_tool st s)
                else incr_tool st s) T = toolTok st T := by
              by_cases ht : s = "Task"
              · cases hsub : strTruthy (pyOr ti.subagent_type ti.agent) <;>
                  simp [ht, hsub]
              · simp [ht]
            rw [toolTok_track_tool_tokens, hmid]
            by_cases h : T = s
            · subst h; simp
              omega
            · simp [h]

theorem agentData_item_le (msg : Message) (sid : Option String)
    (st : MonitorState) (i : ContentItem) (A : String)
    (hin : 0 ≤ msg.usage.input_tokens) (hout : 0 ≤ msg.usage.output_tokens)
    (hcc : 0 ≤ msg.usage.cache_creation_input_tokens)
    (hcr : 0 ≤ msg.usage.cache_read_input_tokens) :
    (agentData st A).count ≤
      (agentData (process_content_item msg sid st i) A).count ∧
    (agentData st A).total_input_tokens ≤
      (agentData (process_content_item msg sid st i) A).total_input_tokens ∧
    (agentData st A).total_output_tokens ≤
      (agentData (process_content_item msg sid st i) A).total_output_tokens ∧
    (agentData st A).total_cache_creation_tokens ≤
      (agentData (process_content_item msg sid st i) A).total_cache_creation_tokens ∧
    (agentData st A).total_cache_read_tokens ≤
      (agentData (process_content_item msg sid st i) A).total_cache_read_tokens := by
  obtain ⟨h1, h2, h3, h4, h5⟩ := agentData_item msg sid st i A
  refine ⟨?_, ?_, ?_, ?_, ?_⟩
  · rw [h1]; split_ifs <;> omega
  · rw [h2]; split_ifs <;> omega
  · rw [h3]; split_ifs <;> omega
  · rw [h4]; split_ifs <;> omega
  · rw [h5]; split_ifs <;> omega

theorem StateLE_item (msg : Message) (sid : Option String)
    (st : MonitorState) (i : ContentItem)
    (hin : 0 ≤ msg.usage.input_tokens) (hout : 0 ≤ msg.usage.output_tokens)
    (hcc : 0 ≤ msg.usage.cache_creation_input_tokens)
    (hcr : 0 ≤ msg.usage.cache_read_input_tokens) :
    StateLE st (process_content_item msg sid st i) :=
  ⟨fun T => toolCount_item_le msg sid st i T,
   fun T => toolTok_item_le msg sid st i T hin hout hcc hcr,
   fun A => agentData_item_le msg sid st i A hin hout hcc hcr⟩

theorem StateLE_foldl (msg : Message) (sid : Option String)
    (l : List ContentItem) (st : MonitorState)
    (hin : 0 ≤ msg.usage.input_tokens) (hout : 0 ≤ msg.usage.output_tokens)
    (hcc : 0 ≤ msg.usage.cache_creation_input_tokens)
    (hcr : 0 ≤ msg.usage.cache_read_input_tokens) :
    StateLE st (l.foldl (process_content_item msg sid) st) := by
  induction l generalizing st with
  | nil => exact StateLE_refl st
  | cons i l ih =>
      simp only [List.foldl_cons]
      exact StateLE_trans (StateLE_item msg sid st i hin hout hcc hcr)
        (ih (process_content_item msg sid st i))

theorem StateLE_session_if (st : MonitorState) (c : Prop) [Decidable c]
    (x : List String) :
    StateLE st (if c then { st with sessions_analyzed := x } else st) := by
  refine ⟨fun T => ?_, fun T => ?_, fun A => ?_⟩ <;> simp

theorem StateLE_process_entry (cutoff : Int) (st : MonitorState) (e : Entry)
    (h : UsageNonneg e) : StateLE st (process_entry cutoff st e) := by
  obtain ⟨hin, hout, hcc, hcr⟩ := h
  cases hret : retained cutoff e
  · rw [process_entry_of_excluded _ _ _ hret]
    exact StateLE_refl st
  · rw [process_entry_of_retained _ _ _ hret]
    simp only [process_retained]
    cases hc : e.message.content with
    | notList =>
        simp only [hc]
        exact StateLE_session_if st _ _
    | items l =>
        simp only [hc]
        exact StateLE_trans
          (StateLE_session_if st (strTruthy e.sessionId = true)
            (insertSession st.sessions_analyzed (e.sessionId.getD "")))
          (StateLE_foldl e.message e.sessionId l _ hin hout hcc hcr)

theorem StateNonneg_mono {s t : MonitorState} (h : StateNonneg s)
    (hle : StateLE s t) : StateNonneg t := by
  intro N
  obtain ⟨x1, x2, x3, x4, x5, x6, x7, x8⟩ := h N
  obtain ⟨_, h2, h3⟩ := hle
  obtain ⟨y1, y2, y3, y4⟩ := h2 N
  obtain ⟨_, z2, z3, z4, z5⟩ := h3 N
  exact ⟨le_trans x1 y1, le_trans x2 y2, le_trans x3 y3, le_trans x4 y4,
    le_trans x5 z2, le_trans x6 z3, le_trans x7 z4, le_trans x8 z5⟩

theorem StateNonneg_initState : StateNonneg initState :=
  fun _ => ⟨le_rfl, le_rfl, le_rfl, le_rfl, le_rfl, le_rfl, le_rfl, le_rfl⟩

theorem StateNonneg_entries (cutoff : Int) (l : List Entry)
    (st : MonitorState) (hst : StateNonneg st)
    (hl : ∀ e ∈ l, UsageNonneg e) :
    StateNonneg (process_entries cutoff st l) := by
  induction l generalizing st with
  | nil => exact hst
  | cons e l ih =>
      simp only [process_entries, List.foldl_cons] at *
      exact ih (process_entry cutoff st e)
        (StateNonneg_mono hst
          (StateLE_process_entry cutoff st e (hl e (by simp))))
        (fun e' he' => hl e' (by simp [he']))

/-- C7: every numeric aggregate starts at zero; processing any entry (with
the data model's non-negative usage counters) never decreases any aggregate;
and after processing any such entry list from the initial state every
aggregate is non-negative. -/
theorem claim_C7 :
    (∀ N, toolCount initState N = 0 ∧
      (toolTok initState N).input_tokens = 0 ∧
      (toolTok initState N).output_tokens = 0 ∧
      (toolTok initState N).cache_creation_tokens = 0 ∧
      (toolTok initState N).cache_read_tokens = 0 ∧
      (agentData initState N).count = 0 ∧
      (agentData initState N).total_input_tokens = 0 ∧
      (agentData initState N).total_output_tokens = 0 ∧
      (agentData initState N).total_cache_creation_tokens = 0 ∧
      (agentData initState N).total_cache_read_tokens = 0) ∧
    (∀ (cutoff : Int) (st : MonitorState) (e : Entry), UsageNonneg e →
      StateLE st (process_entry cutoff st e)) ∧
    (∀ (cutoff : Int) (l : List Entry), (∀ e ∈ l, UsageNonneg e) →
      StateNonneg (process_entries cutoff initState l)) :=
  ⟨fun _ => ⟨rfl, rfl, rfl, rfl, rfl, rfl, rfl, rfl, rfl, rfl⟩,
   fun cutoff st e h => StateLE_process_entry cutoff st e h,
   fun cutoff l hl =>
     StateNonneg_entries cutoff l initState StateNonneg_initState hl⟩

/-- Witness for C7: a concrete non-negative entry taken from the initial
state. -/
theorem claim_C7_witness :
    StateLE initState (process_entry 0 initState entryA) ∧
    StateNonneg (process_entries 0 initState [entryA]) :=
  ⟨claim_C7.2.1 0 initState entryA (by decide),
   claim_C7.2.2 0 [entryA] (by decide)⟩

/-! ## Key-set/count invariants -/

theorem inv_step_noagent (st : MonitorState) (s : String) (msg : Message)
    (h1 : ∀ T, st.tool_token_usage.hasKey T = st.tool_usage.hasKey T)
    (h2 : ∀ T, st.tool_usage.hasKey T = true → 1 ≤ toolCount st T)
    (h3 : ∀ A, st.agent_usage.hasKey A = true → 1 ≤ (agentData st A).count) :
    (∀ T, (track_tool_tokens (incr_tool st s) s msg).tool_token_usage.hasKey T =
      (track_tool_tokens (incr_tool st s) s msg).tool_usage.hasKey T) ∧
    (∀ T, (track_tool_tokens (incr_tool st s) s msg).tool_usage.hasKey T = true →
      1 ≤ toolCount (track_tool_tokens (incr_tool st s) s msg) T) ∧
    (∀ A, (track_tool_tokens (incr_tool st s) s msg).agent_usage.hasKey A = true →
      1 ≤ (agentData (track_tool_tokens (incr_tool st s) s msg) A).count) := by
  refine ⟨fun T => ?_, fun T => ?_, fun A => ?_⟩
  · simp only [track_tool_tokens, incr_tool]
    rw [SMap.hasKey_insert, SMap.hasKey_insert, h1]
  · intro hk
    simp only [track_tool_tokens, incr_tool, toolCount] at hk ⊢
    rw [SMap.findD_insert]
    by_cases h : T = s
    · simp only [h, if_true]
      omega
    · simp only [h, if_false]
      rw [SMap.hasKey_insert] at hk
      simp [h] at hk
      exact h2 T hk
  · intro hk
    simp only [track_tool_tokens, incr_tool, agentData] at hk ⊢
    exact h3 A hk

theorem inv_step_agent (st : MonitorState) (s a : String) (msg : Message)
    (sid : Option String)
    (h1 : ∀ T, st.tool_token_usage.hasKey T = st.tool_usage.hasKey T)
    (h2 : ∀ T, st.tool_usage.hasKey T = true → 1 ≤ toolCount st T)
    (h3 : ∀ A, st.agent_usage.hasKey A = true → 1 ≤ (agentData st A).count) :
    (∀ T, (track_tool_tokens (track_agent_usage (incr_tool st s) a msg sid)
        s msg).tool_token_usage.hasKey T =
      (track_tool_tokens (track_agent_usage (incr_tool st s) a msg sid)
        s msg).tool_usage.hasKey T) ∧
    (∀ T, (track_tool_tokens (track_agent_usage (incr_tool st s) a msg sid)
        s msg).tool_usage.hasKey T = true →
      1 ≤ toolCount (track_tool_tokens
        (track_agent_usage (incr_tool st s) a msg sid) s msg) T) ∧
    (∀ A, (track_tool_tokens (track_agent_usage (incr_tool st s) a msg sid)
        s msg).agent_usage.hasKey A = true →
      1 ≤ (agentData (track_tool_tokens
        (track_agent_usage (incr_tool st s) a msg sid) s msg) A).count) := by
  refine ⟨fun T => ?_, fun T => ?_, fun A => ?_⟩
  · simp only [track_tool_tokens, track_agent_usage, incr_tool]
    rw [SMap.hasKey_insert, SMap.hasKey_insert, h1]
  · intro hk
    simp only [track_tool_tokens, track_agent_usage, incr_tool, toolCount]
      at hk ⊢
    rw [SMap.findD_insert]
    by_cases h : T = s
    · simp only [h, if_true]
      omega
    · simp only [h, if_false]
      rw [SMap.hasKey_insert] at hk
      simp [h] at hk
      exact h2 T hk
  · intro hk
    simp only [track_tool_tokens, track_agent_usage, incr_tool, agentData]
      at hk ⊢
    rw [SMap.findD_insert]
    by_cases h : A = a
    · simp only [h, if_true]
      cases hs : strTruthy sid <;> simp [hs]
    · simp only [h, if_false]
      rw [SMap.hasKey_insert] at hk
      simp [h] at hk
      exact h3 A hk

theorem inv_item (msg : Message) (sid : Option String) (st : MonitorState)
    (i : ContentItem)
    (h1 : ∀ T, st.tool_token_usage.hasKey T = st.tool_usage.hasKey T)
    (h2 : ∀ T, st.tool_usage.hasKey T = true → 1 ≤ toolCount st T)
    (h3 : ∀ A, st.agent_usage.hasKey A = true → 1 ≤ (agentData st A).count) :
    (∀ T, (process_content_item msg sid st i).tool_token_usage.hasKey T =
      (process_content_item msg sid st i).tool_usage.hasKey T) ∧
    (∀ T, (process_content_item msg sid st i).tool_usage.hasKey T = true →
      1 ≤ toolCount (process_content_item msg sid st i) T) ∧
    (∀ A, (process_content_item msg sid st i).agent_usage.hasKey A = true →
      1 ≤ (agentData (process_content_item msg sid st i) A).count) := by
  cases i with
  | other =>
      simp only [process_content_item]
      exact ⟨h1, h2, h3⟩
  | toolUse name ti =>
      cases name with
      | none =>
          simp only [process_content_item, strTruthy, Bool.false_eq_true,
            if_false]
          exact ⟨h1, h2, h3⟩
      | some s =>
          by_cases hs : s = ""
          · subst hs
            have : strTruthy (some "") = false := by decide
            simp only [process_content_item, this, Bool.false_eq_true,
              if_false]
            exact ⟨h1, h2, h3⟩
          · have hst : strTruthy (some s) = true := by simp [strTruthy, hs]
            simp only [process_content_item, hst, if_true, Option.getD_some]
            by_cases ht : s = "Task"
            · subst ht
              cases hsub : strTruthy (pyOr ti.subagent_type ti.agent)
              · simp only [if_pos rfl, hsub, Bool.false_eq_true, if_false]
                exact inv_step_noagent st "Task" msg h1 h2 h3
              · simp only [if_pos rfl, hsub, if_true]
                exact inv_step_agent st "Task"
                  ((pyOr ti.subagent_type ti.agent).getD "") msg sid h1 h2 h3
            · simp only [ht, if_false]
              exact inv_step_noagent st s msg h1 h2 h3

theorem inv_foldl (msg : Message) (sid : Option String)
    (l : List ContentItem) (st : MonitorState)
    (h1 : ∀ T, st.tool_token_usage.hasKey T = st.tool_usage.hasKey T)
    (h2 : ∀ T, st.tool_usage.hasKey T = true → 1 ≤ toolCount st T)
    (h3 : ∀ A, st.agent_usage.hasKey A = true → 1 ≤ (agentData st A).count) :
    (∀ T, (l.foldl (process_content_item msg sid) st).tool_token_usage.hasKey T =
      (l.foldl (process_content_item msg sid) st).tool_usage.hasKey T) ∧
    (∀ T, (l.foldl (process_content_item msg sid) st).tool_usage.hasKey T = true →
      1 ≤ toolCount (l.foldl (process_content_item msg sid) st) T) ∧
    (∀ A, (l.foldl (process_content_item msg sid) st).agent_usage.hasKey A = true →
      1 ≤ (agentData (l.foldl (process_content_item msg sid) st) A).count) := by
  induction l generalizing st with
  | nil => exact ⟨h1, h2, h3⟩
  | cons i l ih =>
      simp only [List.foldl_cons]
      obtain ⟨g1, g2, g3⟩ := inv_item msg sid st i h1 h2 h3
      exact ih (process_content_item msg sid st i) g1 g2 g3

theorem inv_process_entry (cutoff : Int) (st : MonitorState) (e : Entry)
    (h1 : ∀ T, st.tool_token_usage.hasKey T = st.tool_usage.hasKey T)
    (h2 : ∀ T, st.tool_usage.hasKey T = true → 1 ≤ toolCount st T)
    (h3 : ∀ A, st.agent_usage.hasKey A = true → 1 ≤ (agentData st A).count) :
    (∀ T, (process_entry cutoff st e).tool_token_usage.hasKey T =
      (process_entry cutoff st e).tool_usage.hasKey T) ∧
    (∀ T, (process_entry cutoff st e).tool_usage.hasKey T = true →
      1 ≤ toolCount (process_entry cutoff st e) T) ∧
    (∀ A, (process_entry cutoff st e).agent_usage.hasKey A = true →
      1 ≤ (agentData (process_entry cutoff st e) A).count) := by
  cases hret : retained cutoff e
  · rw [process_entry_of_excluded _ _ _ hret]
    exact ⟨h1, h2, h3⟩
  · rw [process_entry_of_retained _ _ _ hret]
    simp only [process_retained]
    have hs1 : ∀ T, (if strTruthy e.sessionId = true then
        { st with sessions_analyzed :=
            insertSession st.sessions_analyzed (e.sessionId.getD "") }
        else st).tool_token_usage.hasKey T =
      (if strTruthy e.sessionId = true then
        { st with sessions_analyzed :=
            insertSession st.sessions_analyzed (e.sessionId.getD "") }
        else st).tool_usage.hasKey T := by
      cases hss : strTruthy e.sessionId <;> simp [hss, h1]
    have hs2 : ∀ T, (if strTruthy e.sessionId = true then
        { st with sessions_analyzed :=
            insertSession st.sessions_analyzed (e.sessionId.getD "") }
        else st).tool_usage.hasKey T = true →
      1 ≤ toolCount (if strTruthy e.sessionId = true then
        { st with sessions_analyzed :=
            insertSession st.sessions_analyzed (e.sessionId.getD "") }
        else st) T := by
      cases hss : strTruthy e.sessionId <;> simp [hss, toolCount] <;>
        exact fun T hk => h2 T hk
    have hs3 : ∀ A, (if strTruthy e.sessionId = true then
        { st with sessions_analyzed :=
            insertSession st.sessions_analyzed (e.sessionId.getD "") }
        else st).agent_usage.hasKey A = true →
      1 ≤ (agentData (if strTruthy e.sessionId = true then
        { st with sessions_analyzed :=
            insertSession st.sessions_analyzed (e.sessionId.getD "") }
        else st) A).count := by
      cases hss : strTruthy e.sessionId <;> simp [hss, agentData] <;>
        exact fun A hk => h3 A hk
    cases hc : e.message.content with
    | notList =>
        simp only [hc]
        exact ⟨hs1, hs2, hs3⟩
    | items l =>
        simp only [hc]
        exact inv_foldl e.message e.sessionId l _ hs1 hs2 hs3

/-- C9: after processing any entry list from the initial state, the tool
token table and the tool call-count table hold exactly the same keys, every
recorded tool has call count at least 1, and every recorded agent has
invocation count at least 1. -/
theorem claim_C9 (cutoff : Int) (l : List Entry) (T A : String) :
    (process_entries cutoff initState l).tool_token_usage.hasKey T =
      (process_entries cutoff initState l).tool_usage.hasKey T ∧
    ((process_entries cutoff initState l).tool_usage.hasKey T = true →
      1 ≤ toolCount (process_entries cutoff initState l) T) ∧
    ((process_entries cutoff initState l).agent_usage.hasKey A = true →
      1 ≤ (agentData (process_entries cutoff initState l) A).count) := by
  have main : ∀ (st : MonitorState),
      (∀ T, st.tool_token_usage.hasKey T = st.tool_usage.hasKey T) →
      (∀ T, st.tool_usage.hasKey T = true → 1 ≤ toolCount st T) →
      (∀ A, st.agent_usage.hasKey A = true → 1 ≤ (agentData st A).count) →
      (∀ T, (process_entries cutoff st l).tool_token_usage.hasKey T =
        (process_entries cutoff st l).tool_usage.hasKey T) ∧
      (∀ T, (process_entries cutoff st l).tool_usage.hasKey T = true →
        1 ≤ toolCount (process_entries cutoff st l) T) ∧
      (∀ A, (process_entries cutoff st l).agent_usage.hasKey A = true →
        1 ≤ (agentData (process_entries cutoff st l) A).count) := by
    induction l with
    | nil => intro st h1 h2 h3; exact ⟨h1, h2, h3⟩
    | cons e l ih =>
        intro st h1 h2 h3
        simp only [process_entries, List.foldl_cons] at ih ⊢
        obtain ⟨g1, g2, g3⟩ := inv_process_entry cutoff st e h1 h2 h3
        exact ih (process_entry cutoff st e) g1 g2 g3
  obtain ⟨g1, g2, g3⟩ := main initState (fun _ => rfl)
    (fun T hk => by simp [SMap.hasKey, SMap.find, initState] at hk)
    (fun A hk => by simp [SMap.hasKey, SMap.find, initState] at hk)
  exact ⟨g1 T, g2 T, g3 A⟩

/-- Witness for C9 at a concrete entry list, exhibiting a recorded tool and
a recorded agent. -/
theorem claim_C9_witness :
    (process_entries 0 initState [entryA]).tool_token_usage.hasKey "Read" =
      (process_entries 0 initState [entryA]).tool_usage.hasKey "Read" ∧
    1 ≤ toolCount (process_entries 0 initState [entryA]) "Read" ∧
    1 ≤ (agentData (process_entries 0 initState [entryA]) "reviewer").count :=
  ⟨(claim_C9 0 [entryA] "Read" "reviewer").1,
   (claim_C9 0 [entryA] "Read" "reviewer").2.1 (by decide),
   (claim_C9 0 [entryA] "Read" "reviewer").2.2 (by decide)⟩

/-! ## Agent invocations are bounded by Task calls -/

@[simp] theorem agent_usage_track_tool_tokens (st : MonitorState)
    (n : String) (msg : Message) :
    (track_tool_tokens st n msg).agent_usage = st.agent_usage := rfl

@[simp] theorem agent_usage_incr_tool (st : MonitorState) (n : String) :
    (incr_tool st n).agent_usage = st.agent_usage := rfl

@[simp] theorem agent_usage_session_if (st : MonitorState) (c : Prop)
    [Decidable c] (x : List String) :
    (if c then { st with sessions_analyzed := x } else st).agent_usage =
      st.agent_usage := by
  by_cases h : c <;> simp [h]

theorem sumBy_insert_bump (m : SMap AgentData) (k : String) (d : AgentData)
    (hd : d.count = (m.findD k {}).count + 1) :
    (m.insert k d).sumBy (fun x => x.count) =
      m.sumBy (fun x => x.count) + 1 := by
  cases hf : m.find k with
  | none =>
      rw [SMap.sumBy_insert_of_find_none _ _ _ _ hf]
      simp only [SMap.findD, hf, Option.getD_none] at hd
      simp [hd]
  | some w =>
      have h2 := SMap.sumBy_insert_of_find_some m k d w (fun x => x.count) hf
      simp only [SMap.findD, hf, Option.getD_some] at hd
      simp only [hd] at h2
      omega

theorem sumAgents_track_agent_usage (st : MonitorState) (a : String)
    (msg : Message) (sid : Option String) :
    (track_agent_usage st a msg sid).agent_usage.sumBy (fun x => x.count) =
      st.agent_usage.sumBy (fun x => x.count) + 1 := by
  simp only [track_agent_usage]
  apply sumBy_insert_bump
  cases hs : strTruthy sid <;> simp [hs]

theorem c10_item (msg : Message) (sid : Option String) (st : MonitorState)
    (i : ContentItem)
    (h : st.agent_usage.sumBy (fun x => x.count) ≤ toolCount st "Task") :
    (process_content_item msg sid st i).agent_usage.sumBy (fun x => x.count) ≤
      toolCount (process_content_item msg sid st i) "Task" := by
  cases i with
  | other => simpa [process_content_item] using h
  | toolUse name ti =>
      cases name with
      | none => simpa [process_content_item, strTruthy] using h
      | some s =>
          by_cases hs : s = ""
          · subst hs; simpa [process_content_item, strTruthy] using h
          · have hst : strTruthy (some s) = true := by simp [strTruthy, hs]
            simp only [process_content_item, hst, if_true, Option.getD_some,
              toolCount_track_tool_tokens, agent_usage_track_tool_tokens]
            by_cases ht : s = "Task"
            · subst ht
              simp only [if_pos rfl]
              cases hsub : strTruthy (pyOr ti.subagent_type ti.agent)
              · simp [hsub, toolCount_incr_tool]
                omega
              · simp [hsub, toolCount_incr_tool, sumAgents_track_agent_usage]
                omega
            · simp only [ht, if_false, agent_usage_incr_tool,
                toolCount_incr_tool]
              rw [if_neg (fun hh : ("Task" : String) = s => ht hh.symm)]
              exact h

theorem c10_foldl (msg : Message) (sid : Option String)
    (l : List ContentItem) (st : MonitorState)
    (h : st.agent_usage.sumBy (fun x => x.count) ≤ toolCount st "Task") :
    (l.foldl (process_content_item msg sid) st).agent_usage.sumBy
        (fun x => x.count) ≤
      toolCount (l.foldl (process_content_item msg sid) st) "Task" := by
  induction l generalizing st with
  | nil => exact h
  | cons i l ih =>
      simp only [List.foldl_cons]
      exact ih (process_content_item msg sid st i) (c10_item msg sid st i h)

theorem c10_entry (cutoff : Int) (st : MonitorState) (e : Entry)
    (h : st.agent_usage.sumBy (fun x => x.count) ≤ toolCount st "Task") :
    (process_entry cutoff st e).agent_usage.sumBy (fun x => x.count) ≤
      toolCount (process_entry cutoff st e) "Task" := by
  cases hret : retained cutoff e
  · rw [process_entry_of_excluded _ _ _ hret]
    exact h
  · rw [process_entry_of_retained _ _ _ hret]
    simp only [process_retained]
    cases hc : e.message.content with
    | notList => simpa [hc] using h
    | items l =>
        simp only [hc]
        apply c10_foldl
        simpa using h

/-- C10: agent invocations are recorded only while handling a `Task` block
that has already been counted, so after any entry list the agents'
invocation counts sum to at most tool `"Task"`'s call count. -/
theorem claim_C10 (cutoff : Int) (l : List Entry) :
    (process_entries cutoff initState l).agent_usage.sumBy
        (fun x => x.count) ≤
      toolCount (process_entries cutoff initState l) "Task" := by
  have main : ∀ (st : MonitorState),
      st.agent_usage.sumBy (fun x => x.count) ≤ toolCount st "Task" →
      (process_entries cutoff st l).agent_usage.sumBy (fun x => x.count) ≤
        toolCount (process_entries cutoff st l) "Task" := by
    induction l with
    | nil => intro st h; exact h
    | cons e l ih =>
        intro st h
        simp only [process_entries, List.foldl_cons] at ih ⊢
        exact ih (process_entry cutoff st e) (c10_entry cutoff st e h)
  exact main initState le_rfl

/-! ## Derived metrics -/

/-- C5: for every consumer row (agent or tool), billable tokens equal
input + 3×output + cache-creation, and cache efficiency equals
cache-read / (billable + cache-read) × 100 when the denominator is positive
and 0 otherwise; a row with billable 100 and cache-read 900 has efficiency
exactly 90. -/
theorem claim_C5 (nm : String) (d : AgentData) (tk : ToolTokens)
    (calls : Nat) :
    ((mkAgentConsumer nm d).total_billable =
      d.total_input_tokens + 3 * d.total_output_tokens +
        d.total_cache_creation_tokens) ∧
    (0 < (mkAgentConsumer nm d).total_billable + d.total_cache_read_tokens →
      (mkAgentConsumer nm d).cache_efficiency =
        (d.total_cache_read_tokens : ℚ) /
          (((mkAgentConsumer nm d).total_billable : ℚ) +
            (d.total_cache_read_tokens : ℚ)) * 100) ∧
    ((mkAgentConsumer nm d).total_billable + d.total_cache_read_tokens ≤ 0 →
      (mkAgentConsumer nm d).cache_efficiency = 0) ∧
    ((mkToolConsumer nm tk calls).total_billable =
      tk.input_tokens + 3 * tk.output_tokens + tk.cache_creation_tokens) ∧
    (0 < (mkToolConsumer nm tk calls).total_billable + tk.cache_read_tokens →
      (mkToolConsumer nm tk calls).cache_efficiency =
        (tk.cache_read_tokens : ℚ) /
          (((mkToolConsumer nm tk calls).total_billable : ℚ) +
            (tk.cache_read_tokens : ℚ)) * 100) ∧
    ((mkToolConsumer nm tk calls).total_billable + tk.cache_read_tokens ≤ 0 →
      (mkToolConsumer nm tk calls).cache_efficiency = 0) ∧
    (mkToolConsumer nm ⟨100, 0, 0, 900⟩ calls).cache_efficiency = 90 := by
  refine ⟨?_, ?_, ?_, ?_, ?_, ?_, ?_⟩
  · simp only [mkAgentConsumer]
    ring
  · intro h
    simp only [mkAgentConsumer] at h ⊢
    rw [if_pos h]
    push_cast
    ring
  · intro h
    simp only [mkAgentConsumer] at h ⊢
    rw [if_neg (by omega)]
  · simp only [mkToolConsumer]
    ring
  · intro h
    simp only [mkToolConsumer] at h ⊢
    rw [if_pos h]
    push_cast
    ring
  · intro h
    simp only [mkToolConsumer] at h ⊢
    rw [if_neg (by omega)]
  · norm_num [mkToolConsumer]

/-- Witness for C5: both the positive and the zero-denominator branches, and
the literal 90% scenario, at concrete rows. -/
theorem claim_C5_witness :
    (0 : Int) <
      (mkAgentConsumer "r" ⟨1, 100, 0, 0, 900, []⟩).total_billable + 900 ∧
    (mkAgentConsumer "r" ⟨1, 100, 0, 0, 900, []⟩).cache_efficiency =
      ((900 : Int) : ℚ) /
        ((((mkAgentConsumer "r" ⟨1, 100, 0, 0, 900, []⟩).total_billable : ℚ)) +
          ((900 : Int) : ℚ)) * 100 ∧
    (mkToolConsumer "t" ⟨0, 0, 0, 0⟩ 2).cache_efficiency = 0 ∧
    (mkToolConsumer "t" ⟨100, 0, 0, 900⟩ 2).cache_efficiency = 90 :=
  ⟨by decide,
   (claim_C5 "r" ⟨1, 100, 0, 0, 900, []⟩ ⟨0, 0, 0, 0⟩ 2).2.1 (by decide),
   (claim_C5 "r" ⟨1, 100, 0, 0, 900, []⟩ ⟨0, 0, 0, 0⟩ 2).2.2.2.2.2.1
     (by decide),
   (claim_C5 "t" ⟨1, 100, 0, 0, 900, []⟩ ⟨100, 0, 0, 900⟩ 2).2.2.2.2.2.2⟩

theorem total_cache_read_all_eq (st : MonitorState) :
    total_cache_read_all st =
      (st.tool_token_usage.map (fun p => p.2.cache_read_tokens)).sum +
      (st.agent_usage.map (fun p => p.2.total_cache_read_tokens)).sum := by
  simp only [total_cache_read_all, token_consumers, List.map_append,
    List.map_map, List.sum_append]
  have h1 : ((fun c : Consumer => c.total_cache_read) ∘
      (fun p : String × AgentData => mkAgentConsumer p.1 p.2)) =
      (fun p : String × AgentData => p.2.total_cache_read_tokens) := rfl
  have h2 : ((fun c : Consumer => c.total_cache_read) ∘
      (fun p : String × ToolTokens =>
        mkToolConsumer p.1 p.2 (st.tool_usage.findD p.1 0))) =
      (fun p : String × ToolTokens => p.2.cache_read_tokens) := rfl
  rw [h1, h2]
  omega

/-- C6: the estimated cost equals input×$3/M + output×$15/M +
cache-creation×$3/M + cache-read×$0.30/M, each total summed over all tool
records plus all agent records; a single tool with one million input tokens
and nothing else costs exactly $3. -/
theorem claim_C6 (st : MonitorState) :
    (estimated_cost st =
      (((st.tool_token_usage.map (fun p => p.2.input_tokens)).sum +
        (st.agent_usage.map (fun p => p.2.total_input_tokens)).sum : Int) : ℚ)
        * 3 / 1000000 +
      (((st.tool_token_usage.map (fun p => p.2.output_tokens)).sum +
        (st.agent_usage.map (fun p => p.2.total_output_tokens)).sum : Int) : ℚ)
        * 15 / 1000000 +
      (((st.tool_token_usage.map (fun p => p.2.cache_creation_tokens)).sum +
        (st.agent_usage.map
          (fun p => p.2.total_cache_creation_tokens)).sum : Int) : ℚ)
        * 3 / 1000000 +
      (((st.tool_token_usage.map (fun p => p.2.cache_read_tokens)).sum +
        (st.agent_usage.map
          (fun p => p.2.total_cache_read_tokens)).sum : Int) : ℚ)
        * (3 / 10) / 1000000) ∧
    estimated_cost singleToolState = 3 := by
  constructor
  · simp only [estimated_cost, total_input_all, total_output_all,
      total_cache_create_all, total_cache_read_all_eq]
    push_cast
    ring
  · norm_num [estimated_cost, total_input_all, total_output_all,
      total_cache_create_all, total_cache_read_all, token_consumers,
      singleToolState, SMap.findD, SMap.find, mkToolConsumer]

end UsageMonitor
